import Mathlib

/-!
Shallow embedding of the worktree-rainbow extension core (src/extension.ts).

Numbers: the TypeScript source computes with IEEE doubles; the embedding uses
exact rationals (`ℚ`) for the computable color pipeline and reals (`ℝ`) for the
WCAG luminance computation (which uses a 2.4-th power).  JavaScript rounding
(`Math.round`), truncating remainder (`%`) and string primitives
(`slice`, `parseInt(_, 16)`, `toString(16)`, `padStart(2, "0")`) are modelled
explicitly below.
-/

namespace WorktreeRainbow

/-- JavaScript `Math.round`: round half toward positive infinity,
i.e. `⌊x + 1/2⌋`. -/
def jsRound (q : ℚ) : ℤ := ⌊q + 1/2⌋

/-- Truncation toward zero, as used by the JavaScript `%` operator. -/
def jsTrunc (q : ℚ) : ℤ := if 0 ≤ q then ⌊q⌋ else ⌈q⌉

/-- JavaScript `x % y` on numbers: `x - y * trunc(x / y)`. -/
def jsMod (x y : ℚ) : ℚ := x - y * jsTrunc (x / y)

/-- Value of a hexadecimal digit character (`0-9`, `a-f`, `A-F`). -/
def hexVal (c : Char) : Option ℕ :=
  if 48 ≤ c.toNat ∧ c.toNat ≤ 57 then some (c.toNat - 48)
  else if 97 ≤ c.toNat ∧ c.toNat ≤ 102 then some (c.toNat - 87)
  else if 65 ≤ c.toNat ∧ c.toNat ≤ 70 then some (c.toNat - 55)
  else none

/-- JavaScript `parseInt(s, 16)`: parse the longest prefix of hexadecimal
digits; `none` models `NaN` (no leading digit).  The source only ever applies
it to two-digit slices of `#rrggbb` strings. -/
def parseIntHex (s : String) : Option ℕ :=
  let ds := s.toList.takeWhile (fun c => (hexVal c).isSome)
  if ds.isEmpty then none
  else some (ds.foldl (fun acc c => 16 * acc + (hexVal c).getD 0) 0)

/-- JavaScript `s.slice(a, b)` for ASCII strings and `0 ≤ a ≤ b`. -/
def jsSlice (s : String) (a b : ℕ) : String :=
  String.mk ((s.toList.drop a).take (b - a))

/-- JavaScript `n.toString(16)` for an integer value. -/
def toStringHex (n : ℤ) : String :=
  if n < 0 then "-" ++ String.mk (Nat.toDigits 16 (-n).toNat)
  else String.mk (Nat.toDigits 16 n.toNat)

/-- JavaScript `s.padStart(2, "0")`. -/
def padStart2 (s : String) : String :=
  if 2 ≤ s.length then s else String.mk (List.replicate (2 - s.length) '0') ++ s

/-- The per-channel helper `f` inside `hslToHex`, with the captured
(already rescaled) `h`, `a` and `l` made explicit parameters. -/
def hslChannel (h a l : ℚ) (n : ℚ) : String :=
  let k := jsMod (n + h / 30) 12
  let color := l - a * max (min (min (k - 3) (9 - k)) 1) (-1)
  padStart2 (toStringHex (jsRound (255 * color)))

/-- `hslToHex(h, s, l)` from the source: standard HSL→RGB conversion,
emitting `#` followed by the channels for `n = 0, 8, 4`. -/
def hslToHex (h s l : ℚ) : String :=
  let s' := s / 100
  let l' := l / 100
  let a := s' * min l' (1 - l')
  "#" ++ hslChannel h a l' 0 ++ hslChannel h a l' 8 ++ hslChannel h a l' 4

/-- One parsed RGB channel of a `#rrggbb` string: `parseInt(hex.slice(a, b), 16)`.
A failed parse (`NaN` in JavaScript) is collapsed to `0`; the extension only
feeds these functions `#rrggbb` strings it generated itself. -/
def channel (hex : String) (a b : ℕ) : ℕ :=
  (parseIntHex (jsSlice hex a b)).getD 0

/-- `darken(hex, amount)` from the source: multiply each RGB channel by
`1 - amount` and round to nearest. -/
def darken (hex : String) (amount : ℚ) : String :=
  let r : ℚ := channel hex 1 3
  let g : ℚ := channel hex 3 5
  let b : ℚ := channel hex 5 7
  let dr := jsRound (r * (1 - amount))
  let dg := jsRound (g * (1 - amount))
  let db := jsRound (b * (1 - amount))
  "#" ++ padStart2 (toStringHex dr) ++ padStart2 (toStringHex dg) ++
    padStart2 (toStringHex db)

/-- The sRGB linearization step `toLinear` inside `contrastForeground`. -/
noncomputable def toLinear (c : ℝ) : ℝ :=
  if c ≤ 0.03928 then c / 12.92 else ((c + 0.055) / 1.055) ^ (2.4 : ℝ)

/-- WCAG relative luminance of a `#rrggbb` string, as computed by
`contrastForeground`. -/
noncomputable def luminance (hex : String) : ℝ :=
  let r : ℝ := (channel hex 1 3 : ℝ) / 255
  let g : ℝ := (channel hex 3 5 : ℝ) / 255
  let b : ℝ := (channel hex 5 7 : ℝ) / 255
  0.2126 * toLinear r + 0.7152 * toLinear g + 0.0722 * toLinear b

/-- `contrastForeground(hex)` from the source: black ink above the `0.179`
luminance cutoff, white ink otherwise. -/
noncomputable def contrastForeground (hex : String) : String :=
  if luminance hex > 0.179 then "#000000" else "#ffffff"

/-! ## The shared configuration blob (`workbench.colorCustomizations`)

A JavaScript object is modelled as an association list with lookup on the
first matching key; `objSet` models property assignment (a spread override
keeps an existing key's position, otherwise the key is appended). -/

/-- A configuration value: the extension writes color strings, other
extensions or the user may have stored arbitrary data (modelled here by
strings and integers, enough to express the frame conditions). -/
inductive ConfigValue
  | str : String → ConfigValue
  | num : Int → ConfigValue
deriving DecidableEq, Repr

/-- The `workbench.colorCustomizations` object. -/
abbrev Blob := List (String × ConfigValue)

/-- Property lookup `obj[k]` (first entry with the key). -/
def objGet {α : Type} (blob : List (String × α)) (k : String) : Option α :=
  (blob.find? (fun kv => kv.1 == k)).map (fun kv => kv.2)

/-- Property assignment `obj[k] = v`: overwrite in place if the key exists,
append otherwise — the semantics of a later entry in an object literal
`{ ...existing, k: v }`. -/
def objSet {α : Type} (blob : List (String × α)) (k : String) (v : α) :
    List (String × α) :=
  if blob.any (fun kv => kv.1 == k) then
    blob.map (fun kv => if kv.1 == k then (k, v) else kv)
  else blob ++ [(k, v)]

/-- `MANAGED_KEYS` from the source. -/
def MANAGED_KEYS : List String :=
  ["titleBar.activeBackground",
   "titleBar.activeForeground",
   "titleBar.inactiveBackground",
   "titleBar.inactiveForeground",
   "statusBar.background",
   "statusBar.foreground"]

/-- The `cleaned` object built by `clearColor`: every entry whose key is not
managed, in order. -/
def clearedBlob (existing : Blob) : Blob :=
  existing.filter (fun kv => !(MANAGED_KEYS.contains kv.1))

/-- The value `clearColor` writes back: `cleaned` when it has at least one
key, otherwise `undefined` (modelled as `none`). -/
def clearColorTarget (existing : Blob) : Option Blob :=
  let cleaned := clearedBlob existing
  if 0 < cleaned.length then some cleaned else none

/-- The `updated` object built by `applyColor`: the existing blob with the six
managed keys overwritten by the palette derived from `color`. -/
noncomputable def applyColorUpdated (color : String) (existing : Blob) : Blob :=
  let fg := contrastForeground color
  let inactiveBg := darken color 0.3
  let inactiveFg := contrastForeground inactiveBg
  objSet (objSet (objSet (objSet (objSet (objSet existing
    "titleBar.activeBackground" (.str color))
    "titleBar.activeForeground" (.str fg))
    "titleBar.inactiveBackground" (.str inactiveBg))
    "titleBar.inactiveForeground" (.str inactiveFg))
    "statusBar.background" (.str color))
    "statusBar.foreground" (.str fg)

/-! ## Extension state and effect trace

`ExtState` carries the durable assignment store (`context.globalState`), the
current `workbench.colorCustomizations` value, and a trace of the externally
visible operations performed (store reads/writes, configuration writes, user
messages).  The trace lets claims about "no store interaction" be stated
directly. -/

/-- One externally visible effect. -/
inductive Eff
  | storeGet : String → Eff
  | storeUpdate : String → Option String → Eff
  | configWrite : Option Blob → Eff
  | warnMsg : String → Eff
  | infoMsg : String → Eff
deriving DecidableEq

/-- Is the effect a store interaction (a `globalState` read or write)? -/
def Eff.isStoreOp : Eff → Bool
  | .storeGet _ => true
  | .storeUpdate _ _ => true
  | _ => false

/-- The mutable world the extension acts on. -/
structure ExtState where
  globalState : List (String × String)
  colorCustomizations : Option Blob
  log : List Eff
deriving DecidableEq

/-- `context.globalState.get(key)` with its trace entry. -/
def storeGet (key : String) (s : ExtState) : Option String × ExtState :=
  (objGet s.globalState key, { s with log := s.log ++ [.storeGet key] })

/-- `context.globalState.update(key, v)`: `undefined` removes the key. -/
def storeUpdate (key : String) (v : Option String) (s : ExtState) : ExtState :=
  { s with
    globalState :=
      match v with
      | none => s.globalState.filter (fun kv => !(kv.1 == key))
      | some c => objSet s.globalState key c,
    log := s.log ++ [.storeUpdate key v] }

/-- `vscode.window.showWarningMessage`. -/
def showWarning (msg : String) (s : ExtState) : ExtState :=
  { s with log := s.log ++ [.warnMsg msg] }

/-- `vscode.window.showInformationMessage`. -/
def showInfo (msg : String) (s : ExtState) : ExtState :=
  { s with log := s.log ++ [.infoMsg msg] }

/-- `clearColor()` from the source: remove the managed keys, write back
`cleaned` or, when it is empty, `undefined`. -/
def clearColorState (s : ExtState) : ExtState :=
  let existing := s.colorCustomizations.getD []
  let target := clearColorTarget existing
  { s with colorCustomizations := target, log := s.log ++ [.configWrite target] }

/-- `applyColor(color)` from the source: derive the palette and write the
merged blob back. -/
noncomputable def applyColorState (color : String) (s : ExtState) : ExtState :=
  let existing := s.colorCustomizations.getD []
  let updated := applyColorUpdated color existing
  { s with
    colorCustomizations := some updated,
    log := s.log ++ [.configWrite (some updated)] }

/-- `colorKey(repoPath, branchName)` from the source. -/
def colorKey (repoPath branchName : String) : String :=
  "colors:" ++ repoPath ++ ":" ++ branchName

/-- `isDefaultBranch`, with the configured `defaultBranches` list passed
explicitly (the source reads it from workspace configuration, defaulting to
`["main", "master"]`). -/
def isDefaultBranch (defaults : List String) (branchName : String) : Bool :=
  defaults.contains branchName

/-! ## The branch-change handler and commands

Randomness (`generateRandomColor`, i.e. `Math.random`) is derandomized by an
oracle `fresh : String → String` giving, for each store key, the color that
would be generated for it.  `repo.state.HEAD?.name` collapses to an
`Option String` (`HEAD` being `undefined` and `HEAD.name` being `undefined`
are indistinguishable to the handler). -/

/-- A repository as the handler sees it: root path and current branch name. -/
structure Repo where
  rootPath : String
  head : Option String
deriving DecidableEq

/-- `handleBranchChange(context, repo)` from the source.  Note the JavaScript
truthiness tests: `if (!branchName)` treats the empty string like `undefined`,
and `if (!color)` treats an empty stored color like a missing one. -/
noncomputable def handleBranchChange (defaults : List String) (repoPath : String)
    (head : Option String) (fresh : String → String) (s : ExtState) : ExtState :=
  match head with
  | none => clearColorState s
  | some branchName =>
    if branchName = "" then clearColorState s
    else if isDefaultBranch defaults branchName then clearColorState s
    else
      let key := colorKey repoPath branchName
      let got := storeGet key s
      let regen := fun (s' : ExtState) =>
        let color := fresh key
        applyColorState color (storeUpdate key (some color) s')
      match got.1 with
      | none => regen got.2
      | some color => if color = "" then regen got.2 else applyColorState color got.2

/-- `path.sep` on the modelled platform. -/
def pathSep : String := "/"

/-- `resolveRepository(git)` from the source, with the active document's
file-system path passed explicitly: longest-root prefix match against the
active document, falling back to `git.repositories[0]`. -/
def resolveRepository (activeDoc : Option String) (repos : List Repo) :
    Option Repo :=
  let fromDoc : Option Repo :=
    match activeDoc with
    | none => none
    | some fsPath =>
      (repos.foldl
        (fun (acc : Option Repo × Int) repo =>
          let root := repo.rootPath
          let isMatch := fsPath == root || fsPath.startsWith (root ++ pathSep)
          if isMatch && acc.2 < (root.length : Int) then
            (some repo, (root.length : Int))
          else acc)
        (none, -1)).1
  match fromDoc with
  | some best => some best
  | none => repos.head?

/-- The `worktreeRainbow.reroll` command handler. -/
noncomputable def rerollCommand (defaults : List String) (activeDoc : Option String)
    (repos : List Repo) (fresh : String → String) (s : ExtState) : ExtState :=
  match resolveRepository activeDoc repos with
  | none => showWarning "Worktree Rainbow: No git repository found." s
  | some repo =>
    match repo.head with
    | none => showWarning "Worktree Rainbow: No branch detected." s
    | some branchName =>
      if branchName = "" then
        showWarning "Worktree Rainbow: No branch detected." s
      else if isDefaultBranch defaults branchName then
        showInfo ("Worktree Rainbow: \"" ++ branchName ++
          "\" is a default branch (no color applied).") s
      else
        let key := colorKey repo.rootPath branchName
        let color := fresh key
        let s1 := applyColorState color (storeUpdate key (some color) s)
        showInfo ("Worktree Rainbow: New color " ++ color ++ " for \"" ++
          branchName ++ "\"") s1

/-- The `worktreeRainbow.clear` command handler.  When a repository (and a
truthy branch name) resolves, the stored assignment is deleted; in every case
`clearColor()` runs and an informational message is shown. -/
def clearCommand (activeDoc : Option String) (repos : List Repo)
    (s : ExtState) : ExtState :=
  let s1 :=
    match resolveRepository activeDoc repos with
    | none => s
    | some repo =>
      match repo.head with
      | none => s
      | some branchName =>
        if branchName = "" then s
        else storeUpdate (colorKey repo.rootPath branchName) none s
  showInfo "Worktree Rainbow: Color cleared." (clearColorState s1)

/-! ## The per-repository watcher

`watchRepo` keeps `lastBranch` (initially `undefined`) and a promise chain
`pending`.  `enqueue` reads the current branch name, drops the notification
when it equals `lastBranch`, and otherwise records it and appends a
`handleBranchChange` task to the chain.  The chain is modelled as an explicit
queue of the branch names read at enqueue time; running the queue processes
the tasks strictly in arrival order. -/

/-- The watcher's private state: last enqueued branch name and pending queue. -/
structure WatcherState where
  lastBranch : Option String
  queue : List (Option String)
deriving DecidableEq

/-- The `enqueue` closure inside `watchRepo`, applied to the branch name the
notification observes (`repo.state.HEAD?.name`). -/
def enqueue (current : Option String) (w : WatcherState) : WatcherState :=
  if current = w.lastBranch then w
  else { lastBranch := current, queue := w.queue ++ [current] }

/-- `watchRepo(repo)` before any notification: `lastBranch` starts out
`undefined` and `enqueue()` is called once on the current branch. -/
def watchRepoInit (head : Option String) : WatcherState :=
  enqueue head { lastBranch := none, queue := [] }

/-- Run the queued branch transitions in order, each one to completion
(`pending.then(...)` chaining). -/
noncomputable def runQueue (defaults : List String) (repoPath : String)
    (fresh : String → String) (q : List (Option String)) (s : ExtState) : ExtState :=
  match q with
  | [] => s
  | b :: rest =>
    runQueue defaults repoPath fresh rest (handleBranchChange defaults repoPath b fresh s)

/-! ## Object-lookup lemmas -/

theorem find_map_set_self {α : Type} (k : String) (v : α) (b : List (String × α))
    (hb : b.any (fun kv => kv.1 == k) = true) :
    (b.map (fun kv => if kv.1 == k then (k, v) else kv)).find?
      (fun kv => kv.1 == k) = some (k, v) := by
  induction b with
  | nil => simp at hb
  | cons kv rest ih =>
    rw [List.map_cons]
    by_cases hk : kv.1 = k
    · have hsub : (if kv.1 == k then (k, v) else kv) = (k, v) := by simp [hk]
      rw [hsub, List.find?_cons_of_pos _ (by simp)]
    · have hk' : (kv.1 == k) = false := beq_eq_false_iff_ne.mpr hk
      have hsub : (if kv.1 == k then (k, v) else kv) = kv := by simp [hk']
      rw [hsub, List.find?_cons_of_neg _ (by simp [hk'])]
      apply ih
      rw [List.any_cons, hk', Bool.false_or] at hb
      exact hb

theorem find_append_single_self {α : Type} (k : String) (v : α)
    (b : List (String × α)) (hb : b.any (fun kv => kv.1 == k) = false) :
    (b ++ [(k, v)]).find? (fun kv => kv.1 == k) = some (k, v) := by
  induction b with
  | nil => exact List.find?_cons_of_pos _ (by simp)
  | cons kv rest ih =>
    rw [List.any_cons, Bool.or_eq_false_iff] at hb
    rw [List.cons_append, List.find?_cons_of_neg _ (by simp [hb.1])]
    exact ih hb.2

theorem find_map_set_ne {α : Type} (k k' : String) (v : α) (h : k' ≠ k)
    (b : List (String × α)) :
    (b.map (fun kv => if kv.1 == k then (k, v) else kv)).find?
      (fun kv => kv.1 == k') = b.find? (fun kv => kv.1 == k') := by
  induction b with
  | nil => rfl
  | cons kv rest ih =>
    rw [List.map_cons]
    by_cases hk : kv.1 = k
    · have hsub : (if kv.1 == k then (k, v) else kv) = (k, v) := by simp [hk]
      have h1 : (kv.1 == k') = false := by
        refine beq_eq_false_iff_ne.mpr ?_
        rw [hk]; exact Ne.symm h
      have h2 : (k == k') = false := beq_eq_false_iff_ne.mpr (Ne.symm h)
      rw [hsub, List.find?_cons_of_neg _ (by simp [h2]),
        List.find?_cons_of_neg _ (by simp [h1])]
      exact ih
    · have hk' : (kv.1 == k) = false := beq_eq_false_iff_ne.mpr hk
      have hsub : (if kv.1 == k then (k, v) else kv) = kv := by simp [hk']
      rw [hsub]
      by_cases he : kv.1 = k'
      · rw [List.find?_cons_of_pos _ (by simp [he]),
          List.find?_cons_of_pos _ (by simp [he])]
      · have he' : (kv.1 == k') = false := beq_eq_false_iff_ne.mpr he
        rw [List.find?_cons_of_neg _ (by simp [he']),
          List.find?_cons_of_neg _ (by simp [he'])]
        exact ih

theorem find_append_single_ne {α : Type} (k k' : String) (v : α) (h : k' ≠ k)
    (b : List (String × α)) :
    (b ++ [(k, v)]).find? (fun kv => kv.1 == k') =
      b.find? (fun kv => kv.1 == k') := by
  induction b with
  | nil =>
    have h2 : (k == k') = false := beq_eq_false_iff_ne.mpr (Ne.symm h)
    rw [List.nil_append, List.find?_cons_of_neg _ (by simp [h2])]
  | cons kv rest ih =>
    rw [List.cons_append]
    by_cases he : kv.1 = k'
    · rw [List.find?_cons_of_pos _ (by simp [he]),
        List.find?_cons_of_pos _ (by simp [he])]
    · have he' : (kv.1 == k') = false := beq_eq_false_iff_ne.mpr he
      rw [List.find?_cons_of_neg _ (by simp [he']),
        List.find?_cons_of_neg _ (by simp [he'])]
      exact ih

/-- Setting a key makes it present with the written value. -/
theorem objGet_objSet_self {α : Type} (b : List (String × α)) (k : String)
    (v : α) : objGet (objSet b k v) k = some v := by
  unfold objGet objSet
  cases hb : b.any (fun kv => kv.1 == k) with
  | true =>
    rw [if_pos rfl, find_map_set_self k v b hb]
    rfl
  | false =>
    rw [if_neg (by decide), find_append_single_self k v b hb]
    rfl

/-- Setting a key leaves every other key's value unchanged. -/
theorem objGet_objSet_ne {α : Type} (b : List (String × α)) (k k' : String)
    (v : α) (h : k' ≠ k) : objGet (objSet b k v) k' = objGet b k' := by
  unfold objGet objSet
  cases hb : b.any (fun kv => kv.1 == k) with
  | true => rw [if_pos rfl, find_map_set_ne k k' v h b]
  | false =>
    rw [if_neg (by decide), find_append_single_ne k k' v h b]

/-- Filtering out the managed keys removes every managed key. -/
theorem find_cleared_managed (k : String) (hk : MANAGED_KEYS.contains k = true)
    (b : Blob) : (clearedBlob b).find? (fun kv => kv.1 == k) = none := by
  unfold clearedBlob
  induction b with
  | nil => rfl
  | cons kv rest ih =>
    cases hc : MANAGED_KEYS.contains kv.1 with
    | true =>
      rw [List.filter_cons_of_neg (by simp only [hc, Bool.not_true]; decide)]
      exact ih
    | false =>
      have hne : (kv.1 == k) = false := by
        refine beq_eq_false_iff_ne.mpr ?_
        intro hcontra
        rw [hcontra, hk] at hc
        exact absurd hc (by decide)
      rw [List.filter_cons_of_pos (by simp only [hc, Bool.not_false]),
        List.find?_cons_of_neg _ (by simp only [hne]; decide)]
      exact ih

/-- Filtering out the managed keys leaves the lookup of any unmanaged key
unchanged. -/
theorem find_cleared_unmanaged (k : String)
    (hk : MANAGED_KEYS.contains k = false) (b : Blob) :
    (clearedBlob b).find? (fun kv => kv.1 == k) =
      b.find? (fun kv => kv.1 == k) := by
  unfold clearedBlob
  induction b with
  | nil => rfl
  | cons kv rest ih =>
    cases hc : MANAGED_KEYS.contains kv.1 with
    | true =>
      have hne : (kv.1 == k) = false := by
        refine beq_eq_false_iff_ne.mpr ?_
        intro hcontra
        rw [hcontra, hk] at hc
        exact absurd hc (by decide)
      rw [List.filter_cons_of_neg (by simp only [hc, Bool.not_true]; decide),
        List.find?_cons_of_neg _ (by simp only [hne]; decide)]
      exact ih
    | false =>
      rw [List.filter_cons_of_pos (by simp only [hc, Bool.not_false])]
      by_cases he : kv.1 = k
      · rw [List.find?_cons_of_pos _ (by simp [he]),
          List.find?_cons_of_pos _ (by simp [he])]
      · have he' : (kv.1 == k) = false := beq_eq_false_iff_ne.mpr he
        rw [List.find?_cons_of_neg _ (by simp only [he']; decide),
          List.find?_cons_of_neg _ (by simp only [he']; decide)]
        exact ih

/-! ## C4: `clearColor` removes exactly the managed keys -/

/-- C4: `clearColor` removes exactly the six managed keys from the shared
configuration blob, leaves every other key (and its value) unchanged, and
writes the explicit absent marker `undefined` instead of an empty object when
nothing remains. -/
theorem clearColor_removes_exactly_managed (existing : Blob) :
    (∀ k, MANAGED_KEYS.contains k = true →
      objGet (clearedBlob existing) k = none) ∧
    (∀ k, MANAGED_KEYS.contains k = false →
      objGet (clearedBlob existing) k = objGet existing k) ∧
    (clearColorTarget existing = none ↔ clearedBlob existing = []) ∧
    (clearColorTarget existing ≠ some []) := by
  refine ⟨fun k hk => ?_, fun k hk => ?_, ?_, ?_⟩
  · unfold objGet
    rw [find_cleared_managed k hk existing]
    rfl
  · unfold objGet
    rw [find_cleared_unmanaged k hk existing]
  · unfold clearColorTarget
    constructor
    · intro h
      by_cases hl : 0 < (clearedBlob existing).length
      · simp [hl] at h
      · simpa using hl
    · intro h
      simp [h]
  · unfold clearColorTarget
    by_cases hl : 0 < (clearedBlob existing).length
    · simp only [hl, if_true, ne_eq, Option.some.injEq]
      intro h
      rw [h] at hl
      simp at hl
    · simp [hl]

/-- Witness for C4 at a concrete blob: a blob holding one managed key and one
foreign key keeps the foreign key, loses the managed one, and is written back
as a (non-empty) object. -/
theorem clearColor_removes_exactly_managed_witness :
    objGet (clearedBlob [("statusBar.background", ConfigValue.str "#c32222"),
        ("foo.bar", ConfigValue.num 1)]) "statusBar.background" = none ∧
    objGet (clearedBlob [("statusBar.background", ConfigValue.str "#c32222"),
        ("foo.bar", ConfigValue.num 1)]) "foo.bar" =
      objGet [("statusBar.background", ConfigValue.str "#c32222"),
        ("foo.bar", ConfigValue.num 1)] "foo.bar" := by
  have h := clearColor_removes_exactly_managed
    [("statusBar.background", ConfigValue.str "#c32222"),
     ("foo.bar", ConfigValue.num 1)]
  exact ⟨h.1 "statusBar.background" (by decide), h.2.1 "foo.bar" (by decide)⟩

/-! ## C5: palette application preserves unrelated keys -/

/-- A key outside `MANAGED_KEYS` differs from each of the six managed keys. -/
theorem unmanaged_ne (k : String) (hk : MANAGED_KEYS.contains k = false) :
    k ≠ "titleBar.activeBackground" ∧ k ≠ "titleBar.activeForeground" ∧
    k ≠ "titleBar.inactiveBackground" ∧ k ≠ "titleBar.inactiveForeground" ∧
    k ≠ "statusBar.background" ∧ k ≠ "statusBar.foreground" := by
  refine ⟨?_, ?_, ?_, ?_, ?_, ?_⟩ <;>
    (intro h; rw [h] at hk; exact absurd hk (by decide))

/-- C5: applying a palette writes the six managed keys (derived from the
color) into the blob and leaves the value of every unrelated key of the prior
blob unchanged. -/
theorem applyColor_merges_palette (color : String) (existing : Blob) :
    objGet (applyColorUpdated color existing) "titleBar.activeBackground" =
      some (ConfigValue.str color) ∧
    objGet (applyColorUpdated color existing) "titleBar.activeForeground" =
      some (ConfigValue.str (contrastForeground color)) ∧
    objGet (applyColorUpdated color existing) "titleBar.inactiveBackground" =
      some (ConfigValue.str (darken color 0.3)) ∧
    objGet (applyColorUpdated color existing) "titleBar.inactiveForeground" =
      some (ConfigValue.str (contrastForeground (darken color 0.3))) ∧
    objGet (applyColorUpdated color existing) "statusBar.background" =
      some (ConfigValue.str color) ∧
    objGet (applyColorUpdated color existing) "statusBar.foreground" =
      some (ConfigValue.str (contrastForeground color)) ∧
    (∀ k, MANAGED_KEYS.contains k = false →
      objGet (applyColorUpdated color existing) k = objGet existing k) := by
  simp only [applyColorUpdated]
  refine ⟨?_, ?_, ?_, ?_, ?_, ?_, fun k hk => ?_⟩
  · rw [objGet_objSet_ne _ _ _ _ (by decide), objGet_objSet_ne _ _ _ _ (by decide),
      objGet_objSet_ne _ _ _ _ (by decide), objGet_objSet_ne _ _ _ _ (by decide),
      objGet_objSet_ne _ _ _ _ (by decide), objGet_objSet_self]
  · rw [objGet_objSet_ne _ _ _ _ (by decide), objGet_objSet_ne _ _ _ _ (by decide),
      objGet_objSet_ne _ _ _ _ (by decide), objGet_objSet_ne _ _ _ _ (by decide),
      objGet_objSet_self]
  · rw [objGet_objSet_ne _ _ _ _ (by decide), objGet_objSet_ne _ _ _ _ (by decide),
      objGet_objSet_ne _ _ _ _ (by decide), objGet_objSet_self]
  · rw [objGet_objSet_ne _ _ _ _ (by decide), objGet_objSet_ne _ _ _ _ (by decide),
      objGet_objSet_self]
  · rw [objGet_objSet_ne _ _ _ _ (by decide), objGet_objSet_self]
  · rw [objGet_objSet_self]
  · obtain ⟨h1, h2, h3, h4, h5, h6⟩ := unmanaged_ne k hk
    rw [objGet_objSet_ne _ _ _ _ h6, objGet_objSet_ne _ _ _ _ h5,
      objGet_objSet_ne _ _ _ _ h4, objGet_objSet_ne _ _ _ _ h3,
      objGet_objSet_ne _ _ _ _ h2, objGet_objSet_ne _ _ _ _ h1]

/-- Witness for C5: a prior blob holding `foo.bar = 1` still holds `foo.bar = 1`
after the merge, and the active background is the applied color. -/
theorem applyColor_merges_palette_witness :
    objGet (applyColorUpdated "#c32222" [("foo.bar", ConfigValue.num 1)])
      "foo.bar" = some (ConfigValue.num 1) ∧
    objGet (applyColorUpdated "#c32222" [("foo.bar", ConfigValue.num 1)])
      "titleBar.activeBackground" = some (ConfigValue.str "#c32222") := by
  have h := applyColor_merges_palette "#c32222" [("foo.bar", ConfigValue.num 1)]
  refine ⟨?_, h.1⟩
  rw [h.2.2.2.2.2.2 "foo.bar" (by decide)]
  rfl

/-! ## C1: default branches never touch the store, managed keys end absent -/

/-- After a clear, every managed key is absent from the written blob. -/
theorem clearColorTarget_managed_absent (existing : Blob) (k : String)
    (hk : MANAGED_KEYS.contains k = true) :
    objGet ((clearColorTarget existing).getD []) k = none := by
  simp only [clearColorTarget]
  by_cases hl : 0 < (clearedBlob existing).length
  · rw [if_pos hl]
    show objGet (clearedBlob existing) k = none
    unfold objGet
    rw [find_cleared_managed k hk]
    rfl
  · rw [if_neg hl]
    rfl

/-- On a default branch, `handleBranchChange` is exactly `clearColor`. -/
theorem handleBranchChange_default_eq (defaults : List String)
    (repoPath : String) (b : String) (fresh : String → String) (s : ExtState)
    (hb : defaults.contains b = true) :
    handleBranchChange defaults repoPath (some b) fresh s = clearColorState s := by
  simp only [handleBranchChange]
  by_cases hbe : b = ""
  · rw [if_pos hbe]
  · rw [if_neg hbe]
    unfold isDefaultBranch
    rw [if_pos hb]

/-- C1: for a branch in the configured default-branch set, the handler performs
no store interaction (the store is unchanged and the new trace events contain
no store operation) and leaves every managed key absent from the blob, whatever
the prior state was. -/
theorem default_branch_exemption (defaults : List String) (repoPath : String)
    (b : String) (fresh : String → String) (s : ExtState)
    (hb : defaults.contains b = true) :
    (handleBranchChange defaults repoPath (some b) fresh s).globalState =
      s.globalState ∧
    (∃ new, (handleBranchChange defaults repoPath (some b) fresh s).log =
      s.log ++ new ∧ ∀ e ∈ new, e.isStoreOp = false) ∧
    (∀ k, MANAGED_KEYS.contains k = true →
      objGet (((handleBranchChange defaults repoPath (some b) fresh
        s).colorCustomizations).getD []) k = none) := by
  rw [handleBranchChange_default_eq defaults repoPath b fresh s hb]
  refine ⟨rfl, ⟨[.configWrite (clearColorTarget (s.colorCustomizations.getD []))],
    rfl, ?_⟩, fun k hk => clearColorTarget_managed_absent _ k hk⟩
  intro e he
  rw [List.mem_singleton] at he
  rw [he]
  rfl

/-- Witness for C1: switching to `main` with a prior branch's keys present in
the blob leaves the store untouched and the managed keys absent. -/
theorem default_branch_exemption_witness :
    (handleBranchChange ["main", "master"] "/repo" (some "main")
        (fun _ => "#c32222")
        { globalState := [("colors:/repo:feat", "#123456")],
          colorCustomizations :=
            some [("statusBar.background", ConfigValue.str "#123456"),
                  ("foo.bar", ConfigValue.num 1)],
          log := [] }).globalState = [("colors:/repo:feat", "#123456")] ∧
    objGet (((handleBranchChange ["main", "master"] "/repo" (some "main")
        (fun _ => "#c32222")
        { globalState := [("colors:/repo:feat", "#123456")],
          colorCustomizations :=
            some [("statusBar.background", ConfigValue.str "#123456"),
                  ("foo.bar", ConfigValue.num 1)],
          log := [] }).colorCustomizations).getD [])
      "statusBar.background" = none := by
  have h := default_branch_exemption ["main", "master"] "/repo" "main"
    (fun _ => "#c32222")
    { globalState := [("colors:/repo:feat", "#123456")],
      colorCustomizations :=
        some [("statusBar.background", ConfigValue.str "#123456"),
              ("foo.bar", ConfigValue.num 1)],
      log := [] } (by decide)
  exact ⟨h.1, h.2.2 "statusBar.background" (by decide)⟩

/-! ## C2: contrast ink is pure black or pure white, split at `L > 0.179` -/

/-- C2: `contrastForeground` only ever returns pure black or pure white, and
returns black exactly when the WCAG relative luminance exceeds `0.179`
(luminance exactly `0.179` yields white). -/
theorem contrastForeground_black_or_white (hex : String) :
    (contrastForeground hex = "#000000" ∨ contrastForeground hex = "#ffffff") ∧
    (contrastForeground hex = "#000000" ↔ luminance hex > 0.179) := by
  unfold contrastForeground
  by_cases h : luminance hex > 0.179
  · rw [if_pos h]
    exact ⟨Or.inl rfl, iff_of_true rfl h⟩
  · rw [if_neg h]
    refine ⟨Or.inr rfl, iff_of_false ?_ h⟩
    intro hcontra
    exact absurd hcontra (by decide)

/-! ## C7 and C8: concrete color arithmetic -/

/-- Evaluation shape of one HSL channel, factoring out the rounded value. -/
theorem hslChannel_eval (h a l n : ℚ) (z : ℤ)
    (hz : jsRound (255 * (l - a *
      max (min (min (jsMod (n + h / 30) 12 - 3) (9 - jsMod (n + h / 30) 12)) 1)
        (-1))) = z) :
    hslChannel h a l n = padStart2 (toStringHex z) := by
  simp only [hslChannel]
  rw [hz]

/-- C7: `hslToHex` at hue 0, saturation 70, lightness 45 yields exactly
`#c32222` (the function is a pure function of its arguments, so this also
fixes determinism, channel ordering and rounding). -/
theorem hslToHex_0_70_45 : hslToHex 0 70 45 = "#c32222" := by
  simp only [hslToHex]
  rw [hslChannel_eval _ _ _ _ 195 (by norm_num [jsRound, jsMod, jsTrunc]),
    hslChannel_eval _ _ _ _ 34 (by norm_num [jsRound, jsMod, jsTrunc]),
    hslChannel_eval _ _ _ _ 34 (by norm_num [jsRound, jsMod, jsTrunc])]
  decide

/-- Evaluation shape of `darken`, factoring out the parsed channels. -/
theorem darken_eval (hex : String) (amount : ℚ) (r g b : ℕ)
    (hr : channel hex 1 3 = r) (hg : channel hex 3 5 = g)
    (hb : channel hex 5 7 = b) :
    darken hex amount =
      "#" ++ padStart2 (toStringHex (jsRound ((r : ℚ) * (1 - amount)))) ++
        padStart2 (toStringHex (jsRound ((g : ℚ) * (1 - amount)))) ++
        padStart2 (toStringHex (jsRound ((b : ℚ) * (1 - amount)))) := by
  simp only [darken, hr, hg, hb]

/-- C8: `darken("#c32222", 0.3)` yields exactly `#891818`; the red channel hits
the half-way value `195 · 0.7 = 136.5`, which rounds up to `137 = 0x89`. -/
theorem darken_c32222 :
    darken "#c32222" 0.3 = "#891818" ∧
    (195 : ℚ) * (1 - 0.3) = 136.5 ∧ jsRound 136.5 = 137 := by
  refine ⟨?_, by norm_num, by norm_num [jsRound]⟩
  rw [darken_eval "#c32222" 0.3 195 34 34 (by decide) (by decide) (by decide)]
  rw [show jsRound (((195 : ℕ) : ℚ) * (1 - 0.3)) = 137 from by
      norm_num [jsRound],
    show jsRound (((34 : ℕ) : ℚ) * (1 - 0.3)) = 24 from by norm_num [jsRound]]
  decide

/-! ## C3: behavior of the commands when no repository resolves

The claim says both commands warn and take no action.  That is true of
`reroll`, but `clear` runs `clearColor()` (a configuration write) and shows an
informational message even when no repository resolved. -/

/-- Counterexample to C3: with no repositories open and a managed key present,
the `clear` command still writes the shared configuration blob (the managed
key disappears and the write is `undefined`), and reports an informational
message rather than a warning. -/
theorem clear_no_repo_still_writes :
    (clearCommand none []
      { globalState := [],
        colorCustomizations :=
          some [("statusBar.background", ConfigValue.str "#123456")],
        log := [] }).colorCustomizations = none ∧
    (clearCommand none []
      { globalState := [],
        colorCustomizations :=
          some [("statusBar.background", ConfigValue.str "#123456")],
        log := [] }).log =
      [Eff.configWrite none,
       Eff.infoMsg "Worktree Rainbow: Color cleared."] := by
  constructor
  · rfl
  · rfl

/-- C3 (amended): when no repository resolves, `reroll` reports a warning and
takes no action (store, blob and everything but the warning unchanged), while
`clear` skips the store deletion but still performs the blob clear and reports
an informational message. -/
theorem no_repo_command_behavior (defaults : List String)
    (activeDoc : Option String) (repos : List Repo) (fresh : String → String)
    (s : ExtState) (h : resolveRepository activeDoc repos = none) :
    ((rerollCommand defaults activeDoc repos fresh s).globalState =
        s.globalState ∧
      (rerollCommand defaults activeDoc repos fresh s).colorCustomizations =
        s.colorCustomizations ∧
      (rerollCommand defaults activeDoc repos fresh s).log =
        s.log ++ [.warnMsg "Worktree Rainbow: No git repository found."]) ∧
    ((clearCommand activeDoc repos s).globalState = s.globalState ∧
      (clearCommand activeDoc repos s).colorCustomizations =
        clearColorTarget (s.colorCustomizations.getD []) ∧
      (clearCommand activeDoc repos s).log = s.log ++
        [.configWrite (clearColorTarget (s.colorCustomizations.getD [])),
         .infoMsg "Worktree Rainbow: Color cleared."]) := by
  have hr : rerollCommand defaults activeDoc repos fresh s =
      showWarning "Worktree Rainbow: No git repository found." s := by
    simp only [rerollCommand, h]
  have hc : clearCommand activeDoc repos s =
      showInfo "Worktree Rainbow: Color cleared." (clearColorState s) := by
    simp only [clearCommand, h]
  rw [hr, hc]
  refine ⟨⟨rfl, rfl, rfl⟩, rfl, rfl, ?_⟩
  show (s.log ++ [.configWrite (clearColorTarget (s.colorCustomizations.getD []))])
      ++ [.infoMsg "Worktree Rainbow: Color cleared."] = _
  rw [List.append_assoc]
  rfl

/-- Witness for C3 at the concrete no-repository state. -/
theorem no_repo_command_behavior_witness :
    (rerollCommand ["main", "master"] none [] (fun _ => "#c32222")
      { globalState := [], colorCustomizations := none, log := [] }).log =
      [Eff.warnMsg "Worktree Rainbow: No git repository found."] := by
  have h := no_repo_command_behavior ["main", "master"] none []
    (fun _ => "#c32222")
    { globalState := [], colorCustomizations := none, log := [] } rfl
  exact h.1.2.2

/-! ## C6: watcher deduplication and in-order processing -/

/-- C6: a notification reporting the same branch name as the last enqueued one
is dropped before entering the queue; a differing branch name is always
enqueued (and recorded as the new last branch); queued transitions run
strictly in arrival order, each completing before the next starts. -/
theorem watcher_dedup_and_order :
    (∀ cur w, cur = w.lastBranch → enqueue cur w = w) ∧
    (∀ cur w, cur ≠ w.lastBranch →
      enqueue cur w = { lastBranch := cur, queue := w.queue ++ [cur] }) ∧
    (∀ defaults repoPath fresh q1 q2 s,
      runQueue defaults repoPath fresh (q1 ++ q2) s =
        runQueue defaults repoPath fresh q2
          (runQueue defaults repoPath fresh q1 s)) := by
  refine ⟨fun cur w h => ?_, fun cur w h => ?_,
    fun defaults repoPath fresh q1 => ?_⟩
  · unfold enqueue
    rw [if_pos h]
  · unfold enqueue
    rw [if_neg h]
  · induction q1 with
    | nil => intro q2 s; rfl
    | cons b rest ih =>
      intro q2 s
      show runQueue defaults repoPath fresh (rest ++ q2)
          (handleBranchChange defaults repoPath b fresh s) =
        runQueue defaults repoPath fresh q2
          (runQueue defaults repoPath fresh rest
            (handleBranchChange defaults repoPath b fresh s))
      exact ih q2 _

/-- Witness for C6: a duplicate notification is dropped, a differing one is
appended to the queue. -/
theorem watcher_dedup_and_order_witness :
    enqueue (some "feat") { lastBranch := some "feat", queue := [] } =
      { lastBranch := some "feat", queue := [] } ∧
    enqueue (some "other") { lastBranch := some "feat", queue := [] } =
      { lastBranch := some "other", queue := [some "other"] } := by
  have h := watcher_dedup_and_order
  exact ⟨h.1 (some "feat") _ rfl, h.2.1 (some "other") _ (by decide)⟩

/-! ## C9: the empty-string branch name

The branch is carried as an optional name (`undefined` for detached), but the
handler's `if (!branchName)` truthiness test sends the empty-string branch
name down the same clear path as the detached state. -/

/-- Counterexample to C9: at a concrete state (with a stored color assigned to
the empty-named branch), processing a branch whose name is the empty string
has exactly the detached-state behavior, and the stored color is not applied:
the managed keys are cleared instead. -/
theorem empty_branch_treated_as_detached :
    handleBranchChange ["main", "master"] "/repo" (some "")
        (fun _ => "#c32222")
        { globalState := [("colors:/repo:", "#aaaaaa")],
          colorCustomizations :=
            some [("statusBar.background", ConfigValue.str "#123456")],
          log := [] } =
      handleBranchChange ["main", "master"] "/repo" none
        (fun _ => "#c32222")
        { globalState := [("colors:/repo:", "#aaaaaa")],
          colorCustomizations :=
            some [("statusBar.background", ConfigValue.str "#123456")],
          log := [] } ∧
    (handleBranchChange ["main", "master"] "/repo" (some "")
        (fun _ => "#c32222")
        { globalState := [("colors:/repo:", "#aaaaaa")],
          colorCustomizations :=
            some [("statusBar.background", ConfigValue.str "#123456")],
          log := [] }).colorCustomizations = none := by
  constructor
  · rfl
  · rfl

/-- C9 (amended): the detached state is an explicit variant distinct from
every branch-name string, but the handler's truthiness test makes it treat an
empty-string branch name exactly like the detached state. -/
theorem detached_variant_and_empty_branch (defaults : List String)
    (repoPath : String) (fresh : String → String) (s : ExtState) :
    (∀ name : String, (none : Option String) ≠ some name) ∧
    handleBranchChange defaults repoPath (some "") fresh s =
      handleBranchChange defaults repoPath none fresh s := by
  refine ⟨fun name h => Option.noConfusion h, ?_⟩
  rfl

/-! ## C10: processing at repository registration

`watchRepo` initializes `lastBranch` to `undefined` and calls `enqueue()`
once.  With a named current branch this enqueues one step; with an absent
branch the initial call compares `undefined` with `undefined` and enqueues
nothing, so no clearing step runs at registration. -/

/-- Counterexample to C10: registering a repository in detached state enqueues
no processing step, so prior managed keys are not cleared at registration
(running the — empty — queue leaves the state, including the stale managed
key, untouched). -/
theorem watch_detached_enqueues_nothing :
    (watchRepoInit none).queue = [] ∧
    runQueue ["main", "master"] "/repo" (fun _ => "#c32222")
        (watchRepoInit none).queue
        { globalState := [],
          colorCustomizations :=
            some [("statusBar.background", ConfigValue.str "#123456")],
          log := [] } =
      { globalState := [],
        colorCustomizations :=
          some [("statusBar.background", ConfigValue.str "#123456")],
        log := [] } := by
  constructor
  · rfl
  · rfl

/-- C10 (amended): at registration, one processing step for the current branch
is enqueued immediately when the branch has a name; when the branch is absent
the initial notification is deduplicated against the initial last-branch value
(also absent) and nothing is enqueued. -/
theorem watch_init_enqueues_current_branch (head : Option String) :
    (head ≠ none →
      watchRepoInit head = { lastBranch := head, queue := [head] }) ∧
    (head = none → watchRepoInit head = { lastBranch := none, queue := [] }) := by
  constructor
  · intro h
    unfold watchRepoInit enqueue
    rw [if_neg h]
    rfl
  · intro h
    rw [h]
    rfl

/-- Witness for C10: a repository already on `feat/login` gets exactly one
step, for `feat/login`, enqueued at registration. -/
theorem watch_init_enqueues_current_branch_witness :
    watchRepoInit (some "feat/login") =
      { lastBranch := some "feat/login", queue := [some "feat/login"] } :=
  (watch_init_enqueues_current_branch (some "feat/login")).1 (by decide)

end WorktreeRainbow
